import Mathlib

/-!
# Verification of the FileStructureScanner filtering and rendering engine

Shallow embedding of `src/scan_files.py`.  Filesystem paths are modelled as
lists of name segments (`List String`); an entry below the scan root is given
by the root's segment list `start` and the entry's relative segment list
`rel` (so the full path is `start ++ rel`, the entry's depth is `rel.length`,
and Python's `str(path)` is the `"/"`-join of `start ++ rel`).
-/

set_option maxRecDepth 8000

namespace ScanFiles

/-- Python `str.lower()` restricted to the scanner's ASCII name sets. -/
def lower (s : String) : String := String.mk (s.toList.map Char.toLower)

/-- Predicate `chPre p s` : the character list `p` is a leading run of `s`
(Python `s.startswith(p)` on the underlying characters). -/
def chPre (p s : List Char) : Bool :=
  match p, s with
  | [], _ => true
  | _ :: _, [] => false
  | c :: cp, d :: ds => c == d && chPre cp ds

/-- Predicate `chSub p s` : the character list `p` occurs contiguously inside `s`
(Python `p in s`). -/
def chSub (p : List Char) : List Char → Bool
  | [] => chPre p []
  | c :: rest => chPre p (c :: rest) || chSub p rest

/-- Python `p in s` (substring containment). -/
def strHas (p s : String) : Bool := chSub p.toList s.toList

/-- Python `s.startswith(p)`. -/
def strStartsW (s p : String) : Bool := chPre p.toList s.toList

/-- Python `s.endswith(p)`. -/
def strEndsW (s p : String) : Bool := chPre p.toList.reverse s.toList.reverse

/-- Python `p.rstrip('/')`: remove every trailing `'/'`. -/
def rstripSlash (p : String) : String :=
  String.mk (p.toList.reverse.dropWhile (fun c => c == '/')).reverse

/-- Python `p[1:]`: drop the first character. -/
def strTail (p : String) : String := String.mk p.toList.tail

/-- Python `str(path)` for a path given by its segments (POSIX separator). -/
def joinPath : List String → String
  | [] => ""
  | [s] => s
  | s :: t :: rest => s ++ "/" ++ joinPath (t :: rest)

/-- Python `path.name`: the last segment of the path. -/
def pathName (segs : List String) : String := segs.getLastD ""

/-- List `DEFAULT_IGNORE_PATTERNS` from `src/scan_files.py`, in source order
(including the duplicated entries). -/
def DEFAULT_IGNORE_PATTERNS : List String :=
  [".git", ".svn", ".hg", ".bzr",
   "__pycache__", ".pytest_cache", "htmlcov",
   ".tox", ".venv", "venv", "env",
   "dist", "build", "*.egg-info", "eggs",
   ".pythonlibs", "site-packages", ".local/lib/python*",
   "pip-wheel-metadata", "poetry.lock",
   "node_modules", "bower_components", ".npm",
   ".cache", ".parcel-cache",
   ".webpack/build/",
   ".rollup-cache/",
   ".vite/build/",
   ".next/cache/",
   ".nuxt/cache/",
   ".output/cache/",
   ".yarn", ".pnp.*",
   "target/", "bin/", ".gradle/cache/",
   ".m2/repository/",
   "classes/", "out/", "build/",
   "META-INF/", "MANIFEST.MF",
   "*.iml", "*.iws", "*.ipr",
   ".idea", ".vscode", ".vs",
   ".settings", ".project", ".classpath",
   "*.swp", "*.swo", "*~",
   ".history/", ".sourcemaps/",
   ".DS_Store", ".AppleDouble", ".LSOverride",
   "Thumbs.db", "desktop.ini", "$RECYCLE.BIN/",
   "System Volume Information",
   ".Spotlight-V100", ".Trashes",
   "vendor/", "bower_components", "jspm_packages",
   "packages/", ".serverless/cache/",
   "coverage/", ".nyc_output/",
   ".sass-cache/",
   "*.css.map", "*.js.map",
   "*.log", "logs/", "log/",
   ".temp/", ".tmp/", "tmp/",
   "*.bak", "*.retry",
   "*.pyc", "*.pyo", "*.pyd",
   "*.so", "*.dll", "*.dylib",
   "*.class", "*.o", "*.ko",
   "*.obj", "*.exe", "*.pid",
   "yarn.lock", "package-lock.json",
   "pnpm-lock.yaml", "bun.lockb",
   "docs/_build/", "site/build/", ".docusaurus/build/",
   ".docker/cache/",
   ".github/actions/", ".gitlab/runners/", ".circleci/cache/",
   "coverage/", ".coverage",
   "coverage.xml", "nosetests.xml",
   ".hypothesis/cache/",
   ".conda/pkgs/",
   ".jupyter/cache/"]

/-- Set `library_folders` from `should_ignore` in `src/scan_files.py`
(a Python set; only membership is used, so a list is faithful). -/
def library_folders : List String :=
  ["node_modules", "vendor", "bower_components", "packages",
   "site-packages", ".pythonlibs", "jspm_packages",
   ".git",
   "dist", "build", "target", "out", "bin",
   ".next", ".nuxt", ".output",
   "__pycache__", ".venv", "venv", "env",
   ".parcel-cache", ".webpack", ".rollup-cache"]

/-- Set `important_config_files` from `should_ignore` in `src/scan_files.py`. -/
def important_config_files : List String :=
  ["vite.config.js", "vite.config.ts",
   "webpack.config.js", "webpack.config.ts",
   "rollup.config.js", "rollup.config.ts",
   "next.config.js", "next.config.ts",
   "svelte.config.js", "svelte.config.ts",
   "nuxt.config.js", "nuxt.config.ts",
   "package.json", "composer.json",
   "cargo.toml", "go.mod",
   ".env", ".env.local", ".env.development",
   ".env.test", ".env.production",
   "tsconfig.json", "babel.config.js",
   "jest.config.js", "postcss.config.js"]

/-- The `while current != Path(start_path)` loop of `should_ignore`
(lines 259–263): it visits `start ++ rel`, `start ++ rel.dropLast`, …,
down to (and excluding) `start` itself, testing each visited prefix's last
segment name; the visited names are exactly the segments of `rel`. -/
def insideLibrary (rel : List String) : Bool :=
  rel.any (fun seg => library_folders.contains (lower seg))

/-- One disjunct of the generator expression on lines 304–308:
`pattern in path_str or path_str.endswith(pattern.rstrip('/')) or
(pattern.startswith('*.') and path_str.endswith(pattern[1:]))`. -/
def matchesPattern (pat path_str : String) : Bool :=
  strHas pat path_str ||
  strEndsW path_str (rstripSlash pat) ||
  (strStartsW pat "*." && strEndsW path_str (strTail pat))

/-- Function `should_ignore` from `src/scan_files.py` (lines 214–309).
`start` is the scan root's segment list, `rel` the entry's segments
relative to the root (nonempty for every entry `rglob` yields, so the
`relative_to` failure branch of the source cannot arise in the model). -/
def should_ignore (start ignore_patterns rel : List String) : Bool :=
  let path_str := joinPath (start ++ rel)
  let path_name_lower := lower (pathName (start ++ rel))
  let depth := rel.length
  if library_folders.contains path_name_lower then
    -- line 256: `return depth > 1`
    decide (1 < depth)
  else if insideLibrary rel then
    -- lines 259-263: inside a library folder, ignore everything
    true
  else if depth == 1 && important_config_files.contains path_name_lower then
    -- lines 286-287
    false
  else if depth == 2 &&
      !(library_folders.contains (lower (pathName ((start ++ rel).dropLast)))) &&
      important_config_files.contains path_name_lower then
    -- lines 290-293: `path.parent.name.lower()` is the last segment of the
    -- full path with its final segment dropped
    false
  else if depth == 1 &&
      (strStartsW path_name_lower "config." ||
       strEndsW path_name_lower ".config.js" ||
       strEndsW path_name_lower ".config.ts" ||
       strStartsW path_name_lower ".env") then
    -- lines 296-301
    false
  else
    -- lines 304-309
    ignore_patterns.any (fun pat => matchesPattern pat path_str)

/-- The guard of lines 290–293 of `should_ignore` in isolation: the depth-2
config-preservation rule.  It fires only when the entry is at depth 2, its
immediate parent's lowercased name is not a library folder, and its own
lowercased name is in `important_config_files`. -/
def preservedByDepth2 (start rel : List String) : Bool :=
  rel.length == 2 &&
  !(library_folders.contains (lower (pathName ((start ++ rel).dropLast)))) &&
  important_config_files.contains (lower (pathName (start ++ rel)))

/-- An entry reaches the generic-pattern stage of `should_ignore`: none of
the guards of lines 255, 259–263, 286, 290, and 296 holds, so control falls
through to the pattern check on lines 304–309. -/
def reachesGenericStage (start rel : List String) : Bool :=
  let path_name_lower := lower (pathName (start ++ rel))
  let depth := rel.length
  !(library_folders.contains path_name_lower) &&
  !(insideLibrary rel) &&
  !(depth == 1 && important_config_files.contains path_name_lower) &&
  !(depth == 2 &&
      !(library_folders.contains (lower (pathName ((start ++ rel).dropLast)))) &&
      important_config_files.contains path_name_lower) &&
  !(depth == 1 &&
      (strStartsW path_name_lower "config." ||
       strEndsW path_name_lower ".config.js" ||
       strEndsW path_name_lower ".config.ts" ||
       strStartsW path_name_lower ".env"))

/-- The spec's wording of one generic match (rule 5): "substring containment
of the pattern within the full path string; suffix match against the pattern
with a trailing path-separator stripped; glob-suffix match: for patterns of
the form `*.ext`, suffix match against `.ext`".  Stated independently of the
source's `matchesPattern` so the two can be compared. -/
def specMatchMode (pat path_str : String) : Bool :=
  strHas pat path_str ||
  strEndsW path_str (rstripSlash pat) ||
  (strStartsW pat "*." && strEndsW path_str (strTail pat))

/-- Python `<` on single characters: comparison of Unicode code points. -/
def charLt (a b : Char) : Bool := decide (a.toNat < b.toNat)

/-- Python's strict lexicographic sequence comparison (used both for `str`
comparison, element-wise on characters, and for comparison of path-part
tuples, element-wise on strings): a strict leading run compares below every
proper extension. -/
def lexBy [BEq α] (lt : α → α → Bool) : List α → List α → Bool
  | _, [] => false
  | [], _ :: _ => true
  | a :: as, b :: bs => lt a b || (a == b && lexBy lt as bs)

/-- Python string `<`: lexicographic on code points. -/
def strLt (a b : String) : Bool := lexBy charLt a.toList b.toList

/-- Python `<` on lists/tuples of strings; `sorted()` over `Path` objects
orders by the tuple of path components this way (pathlib compares the
case-normalised parts, which on POSIX are the parts themselves). -/
def partsLt : List String → List String → Bool := lexBy strLt

/-- Non-strict version of `partsLt`. -/
def partsLe (a b : List String) : Bool := partsLt a b || a == b

/-- Holds when `xs` is strictly increasing adjacent-wise under the relation `lt`. -/
def chainSortedBy (lt : α → α → Bool) : List α → Bool
  | [] => true
  | [_] => true
  | a :: b :: rest => lt a b && chainSortedBy lt (b :: rest)

/-- A filesystem node below the scan root, as enumerated by
`Path(start_path).rglob('*')`: its segments relative to the root and whether
it is a directory (`path.is_dir()`). -/
structure FSEntry where
  rel : List String
  isDir : Bool
deriving DecidableEq

/-- The sort key of `sorted(Path(start_path).rglob('*'))`: all enumerated
full paths share the root's segments as a common prefix, so comparing full
paths part-wise is comparing the relative segments part-wise. -/
def entryLe (a b : FSEntry) : Bool := partsLe a.rel b.rel

/-- Model of `sorted(Path(start_path).rglob('*'))` on an enumeration `fs`:
a stable sort by the part-wise path order, modelled by insertion sort
(Python's `sorted` is also a stable sort by the same total preorder). -/
def sortedEntries (fs : List FSEntry) : List FSEntry :=
  List.insertionSort (fun a b => entryLe a b = true) fs

/-- The entries that survive the `should_ignore` filter of the main loop
(lines 323–325), in traversal order. -/
def visibleEntries (start patterns : List String) (fs : List FSEntry) :
    List FSEntry :=
  (sortedEntries fs).filter (fun e => !(should_ignore start patterns e.rel))

/-- Lines 312–317: marker selection. -/
def dirMarker (use_emoji : Bool) : String :=
  if use_emoji then "📁 " else "[DIR] "

/-- Lines 312–317: marker selection. -/
def fileMarker (use_emoji : Bool) : String :=
  if use_emoji then "📄 " else "[FILE] "

/-- Lines 327–337: the line written for one non-ignored entry:
`"    " * (len(rel_path.parts) - 1)`, then the marker, then `rel_path.name`. -/
def renderEntry (use_emoji : Bool) (e : FSEntry) : String :=
  let depth := e.rel.length - 1
  let indent := String.join (List.replicate depth "    ")
  let marker := if e.isDir then dirMarker use_emoji else fileMarker use_emoji
  indent ++ marker ++ pathName e.rel

/-- The lines `scan_directory` writes (lines 319–337): each `f.write` call
ends in `"\n"`, and the second call `f.write("=" * 50 + "\n\n")` contributes
the `'='`-line and one blank line, so the file is exactly these lines
joined by newlines. -/
def scanLines (startStr : String) (start patterns : List String)
    (use_emoji : Bool) (fs : List FSEntry) : List String :=
  ["File structure for: " ++ startStr,
   String.mk (List.replicate 50 '='),
   ""] ++ (visibleEntries start patterns fs).map (renderEntry use_emoji)

/-- The output line format as the spec states it: the indent is four spaces
repeated per depth level (root's direct children at zero indentation), the
marker is chosen by directory/file and emoji/text mode, and the name is the
entry's base name only.  Stated independently of `renderEntry` so the two
can be compared. -/
def specEntryLine (use_emoji : Bool) (e : FSEntry) : String :=
  String.join (List.replicate (e.rel.length - 1) "    ") ++
  (if e.isDir then (if use_emoji then "📁 " else "[DIR] ")
   else (if use_emoji then "📄 " else "[FILE] ")) ++
  pathName e.rel

/-- Classification as a function of the generic pattern list, the textual
form of the root path, the entry's ancestor names strictly below the root,
and its own name — the factored form of `should_ignore` used to settle what
the classification can depend on. -/
def classifyFrom (patterns : List String) (rootStr : String)
    (ancestors : List String) (name : String) : Bool :=
  let path_str := rootStr ++ "/" ++ joinPath (ancestors ++ [name])
  let nameL := lower name
  let depth := ancestors.length + 1
  if library_folders.contains nameL then
    decide (1 < depth)
  else if (ancestors ++ [name]).any (fun seg => library_folders.contains (lower seg)) then
    true
  else if depth == 1 && important_config_files.contains nameL then
    false
  else if depth == 2 &&
      !(library_folders.contains (lower (pathName ancestors))) &&
      important_config_files.contains nameL then
    false
  else if depth == 1 &&
      (strStartsW nameL "config." ||
       strEndsW nameL ".config.js" ||
       strEndsW nameL ".config.ts" ||
       strStartsW nameL ".env") then
    false
  else
    patterns.any (fun pat => matchesPattern pat path_str)

/-- Scenario 1 of the spec: a root containing `node_modules/react/index.js`
(the traversal also enumerates the contents of the opaque directory; the
filter discards them). -/
def fsScenario1 : List FSEntry :=
  [⟨["node_modules"], true⟩,
   ⟨["node_modules", "react"], true⟩,
   ⟨["node_modules", "react", "index.js"], false⟩]

/-- Scenario 2 of the spec: a root containing `src/app.config.js` and
`lib/app.config.js`. -/
def fsScenario2 : List FSEntry :=
  [⟨["src"], true⟩, ⟨["src", "app.config.js"], false⟩,
   ⟨["lib"], true⟩, ⟨["lib", "app.config.js"], false⟩]

/-- A tree with sibling directories `a` and `a.c` (each with one file),
listed in a scrambled enumeration order. -/
def fsPrefixPair : List FSEntry :=
  [⟨["a.c", "d"], false⟩, ⟨["a"], true⟩, ⟨["a.c"], true⟩,
   ⟨["a", "b"], false⟩]

/-! ## Helper lemmas -/

theorem pathName_concat (xs : List String) (x : String) :
    pathName (xs ++ [x]) = x := by
  simp [pathName, List.getLastD_concat]

theorem pathName_append (xs : List String) {ys : List String} (h : ys ≠ []) :
    pathName (xs ++ ys) = pathName ys := by
  conv_lhs => rw [← List.dropLast_append_getLast h, ← List.append_assoc]
  rw [pathName_concat]
  conv_rhs => rw [← List.dropLast_append_getLast h]
  rw [pathName_concat]

theorem joinPath_append (xs : List String) {ys : List String} (hx : xs ≠ [])
    (hy : ys ≠ []) : joinPath (xs ++ ys) = joinPath xs ++ "/" ++ joinPath ys := by
  induction xs with
  | nil => exact absurd rfl hx
  | cons a as ih =>
    cases ys with
    | nil => exact absurd rfl hy
    | cons b bs =>
      cases as with
      | nil => rfl
      | cons c cs =>
        have e1 : joinPath (a :: c :: cs ++ b :: bs) =
            a ++ "/" ++ joinPath (c :: cs ++ b :: bs) := rfl
        have e2 : joinPath (a :: c :: cs) = a ++ "/" ++ joinPath (c :: cs) := rfl
        rw [e1, ih (by simp), e2]
        simp only [String.append_assoc]

theorem lower_pathName_map {rel : List String} (h : rel ≠ []) :
    lower (pathName rel) = pathName (rel.map lower) := by
  conv_lhs => rw [← List.dropLast_append_getLast h]
  conv_rhs => rw [← List.dropLast_append_getLast h]
  rw [pathName_concat, List.map_append, List.map_cons, List.map_nil,
    pathName_concat]

/-! ### Order lemmas for the lexicographic comparisons -/

theorem charLt_irrefl (x : Char) : charLt x x = false := by
  simp [charLt]

theorem charLt_trans {x y z : Char} (h1 : charLt x y = true)
    (h2 : charLt y z = true) : charLt x z = true := by
  simp only [charLt, decide_eq_true_eq] at h1 h2 ⊢
  omega

theorem charLt_asymm {x y : Char} (h : charLt x y = true) :
    charLt y x = false := by
  simp only [charLt, decide_eq_true_eq] at h
  simp only [charLt, decide_eq_false_iff_not]
  omega

theorem charLt_conn {x y : Char} (h : charLt x y = false) (hne : x ≠ y) :
    charLt y x = true := by
  have hv : x.toNat ≠ y.toNat := fun he =>
    hne (Char.eq_of_val_eq (UInt32.toNat.inj he))
  simp only [charLt, decide_eq_false_iff_not] at h
  simp only [charLt, decide_eq_true_eq]
  omega

theorem lexBy_irrefl [BEq α] [LawfulBEq α] {lt : α → α → Bool}
    (ltI : ∀ x, lt x x = false) : ∀ a, lexBy lt a a = false := by
  intro a
  induction a with
  | nil => rfl
  | cons x xs ih => simp [lexBy, ltI x, ih]

theorem lexBy_trans [BEq α] [LawfulBEq α] {lt : α → α → Bool}
    (ltT : ∀ {x y z : α}, lt x y = true → lt y z = true → lt x z = true) :
    ∀ {a b c : List α}, lexBy lt a b = true → lexBy lt b c = true →
      lexBy lt a c = true := by
  intro a
  induction a with
  | nil =>
    intro b c _ h2
    cases c with
    | nil => cases b <;> simp [lexBy] at h2
    | cons z zs => simp [lexBy]
  | cons x xs ih =>
    intro b c h1 h2
    cases b with
    | nil => simp [lexBy] at h1
    | cons y ys =>
      cases c with
      | nil => simp [lexBy] at h2
      | cons z zs =>
        simp only [lexBy, Bool.or_eq_true, Bool.and_eq_true,
          beq_iff_eq] at h1 h2 ⊢
        rcases h1 with h1 | ⟨rfl, h1⟩
        · rcases h2 with h2 | ⟨rfl, _⟩
          · exact Or.inl (ltT h1 h2)
          · exact Or.inl h1
        · rcases h2 with h2 | ⟨rfl, h2⟩
          · exact Or.inl h2
          · exact Or.inr ⟨rfl, ih h1 h2⟩

theorem lexBy_asymm [BEq α] [LawfulBEq α] {lt : α → α → Bool}
    (ltI : ∀ x, lt x x = false)
    (ltA : ∀ {x y : α}, lt x y = true → lt y x = false) :
    ∀ {a b : List α}, lexBy lt a b = true → lexBy lt b a = false := by
  intro a
  induction a with
  | nil =>
    intro b h
    cases b with
    | nil => simp [lexBy] at h
    | cons y ys => simp [lexBy]
  | cons x xs ih =>
    intro b h
    cases b with
    | nil => simp [lexBy] at h
    | cons y ys =>
      simp only [lexBy, Bool.or_eq_true, Bool.and_eq_true,
        beq_iff_eq] at h
      simp only [lexBy, Bool.or_eq_false_iff, Bool.and_eq_false_iff,
        beq_eq_false_iff_ne, ne_eq]
      rcases h with h | ⟨rfl, h⟩
      · refine ⟨ltA h, ?_⟩
        left
        intro hyx
        subst hyx
        rw [ltI] at h
        exact Bool.false_ne_true h
      · exact ⟨ltI x, Or.inr (ih h)⟩

theorem lexBy_conn [BEq α] [LawfulBEq α] {lt : α → α → Bool}
    (ltC : ∀ {x y : α}, lt x y = false → x ≠ y → lt y x = true) :
    ∀ {a b : List α}, lexBy lt a b = false → a ≠ b → lexBy lt b a = true := by
  intro a
  induction a with
  | nil =>
    intro b h hne
    cases b with
    | nil => exact absurd rfl hne
    | cons y ys => simp [lexBy] at h
  | cons x xs ih =>
    intro b h hne
    cases b with
    | nil => simp [lexBy]
    | cons y ys =>
      simp only [lexBy, Bool.or_eq_false_iff, Bool.and_eq_false_iff,
        beq_eq_false_iff_ne, ne_eq] at h
      simp only [lexBy, Bool.or_eq_true, Bool.and_eq_true, beq_iff_eq]
      obtain ⟨h1, h2⟩ := h
      by_cases hxy : x = y
      · subst hxy
        rcases h2 with h2 | h2
        · exact absurd rfl h2
        · refine Or.inr ⟨rfl, ih h2 ?_⟩
          intro hx
          exact hne (by rw [hx])
      · exact Or.inl (ltC h1 hxy)

theorem lexBy_lt_of_lead [BEq α] [LawfulBEq α] {lt : α → α → Bool} :
    ∀ {a b : List α}, a <+: b → a ≠ b → lexBy lt a b = true := by
  intro a
  induction a with
  | nil =>
    intro b _ hne
    cases b with
    | nil => exact absurd rfl hne
    | cons y ys => simp [lexBy]
  | cons x xs ih =>
    intro b hp hne
    cases b with
    | nil =>
      obtain ⟨t, ht⟩ := hp
      simp at ht
    | cons y ys =>
      obtain ⟨t, ht⟩ := hp
      rw [List.cons_append] at ht
      injection ht with hxy ht
      subst hxy
      have hih : lexBy lt xs ys = true :=
        ih ⟨t, ht⟩ (fun hx => hne (by rw [hx]))
      simp [lexBy, hih]

theorem insideLibrary_map_lower (rel : List String) :
    insideLibrary rel = (rel.map lower).any (fun s => library_folders.contains s) := by
  simp only [insideLibrary, List.any_map]
  rfl

theorem lower_parent_map (start : List String) {rel : List String}
    (h2 : rel.dropLast ≠ []) :
    lower (pathName ((start ++ rel).dropLast)) =
      pathName ((rel.map lower).dropLast) := by
  have hrelne : rel ≠ [] := by
    intro h
    subst h
    simp at h2
  rw [List.dropLast_append_of_ne_nil start hrelne, pathName_append start h2,
    lower_pathName_map h2, List.map_dropLast]

theorem strLt_irrefl (s : String) : strLt s s = false :=
  lexBy_irrefl charLt_irrefl _

theorem strLt_trans {a b c : String} (h1 : strLt a b = true)
    (h2 : strLt b c = true) : strLt a c = true := by
  unfold strLt at h1 h2 ⊢
  exact @lexBy_trans Char _ _ charLt
    (fun {_ _ _} h h' => charLt_trans h h') _ _ _ h1 h2

theorem strLt_asymm {a b : String} (h : strLt a b = true) :
    strLt b a = false :=
  lexBy_asymm charLt_irrefl (fun {_ _} h' => charLt_asymm h') h

theorem strLt_conn {a b : String} (h : strLt a b = false) (hne : a ≠ b) :
    strLt b a = true :=
  lexBy_conn (fun {_ _} h' hne' => charLt_conn h' hne') h
    (fun he => hne (String.toList_inj.mp he))

theorem partsLt_irrefl (l : List String) : partsLt l l = false :=
  lexBy_irrefl strLt_irrefl l

theorem partsLt_trans {a b c : List String} (h1 : partsLt a b = true)
    (h2 : partsLt b c = true) : partsLt a c = true := by
  unfold partsLt at h1 h2 ⊢
  exact @lexBy_trans String _ _ strLt
    (fun {_ _ _} h h' => strLt_trans h h') _ _ _ h1 h2

theorem partsLt_asymm {a b : List String} (h : partsLt a b = true) :
    partsLt b a = false :=
  lexBy_asymm strLt_irrefl (fun {_ _} h' => strLt_asymm h') h

theorem partsLt_conn {a b : List String} (h : partsLt a b = false)
    (hne : a ≠ b) : partsLt b a = true :=
  lexBy_conn (fun {_ _} h' hne' => strLt_conn h' hne') h hne

theorem partsLt_of_lead {a b : List String} (h : a <+: b) (hne : a ≠ b) :
    partsLt a b = true :=
  lexBy_lt_of_lead h hne

theorem partsLe_trans {a b c : List String} (h1 : partsLe a b = true)
    (h2 : partsLe b c = true) : partsLe a c = true := by
  simp only [partsLe, Bool.or_eq_true, beq_iff_eq] at h1 h2 ⊢
  rcases h1 with h1 | rfl
  · rcases h2 with h2 | rfl
    · exact Or.inl (partsLt_trans h1 h2)
    · exact Or.inl h1
  · exact h2

theorem partsLe_total (a b : List String) : (partsLe a b || partsLe b a) = true := by
  by_cases h : partsLt a b = true
  · simp [partsLe, h]
  · by_cases he : a = b
    · subst he
      simp [partsLe]
    · have hba : partsLt b a = true :=
        partsLt_conn (Bool.not_eq_true _ ▸ h) he
      simp [partsLe, hba]

theorem partsLt_of_le_ne {a b : List String} (h : partsLe a b = true)
    (hne : a ≠ b) : partsLt a b = true := by
  simp only [partsLe, Bool.or_eq_true, beq_iff_eq] at h
  rcases h with h | rfl
  · exact h
  · exact absurd rfl hne

instance : IsTrans FSEntry (fun a b => entryLe a b = true) :=
  ⟨fun _ _ _ h1 h2 => partsLe_trans h1 h2⟩

instance : IsTotal FSEntry (fun a b => entryLe a b = true) :=
  ⟨fun a b => by
    have h := partsLe_total a.rel b.rel
    rcases Bool.or_eq_true_iff.mp h with h' | h'
    · exact Or.inl h'
    · exact Or.inr h'⟩

theorem sortedEntries_pairwise (fs : List FSEntry) :
    (sortedEntries fs).Pairwise (fun a b => entryLe a b = true) :=
  List.sorted_insertionSort _ fs

theorem visibleEntries_pairwise (start patterns : List String)
    (fs : List FSEntry) (h : (fs.map FSEntry.rel).Nodup) :
    (visibleEntries start patterns fs).Pairwise
      (fun a b => partsLt a.rel b.rel = true) := by
  have hs := sortedEntries_pairwise fs
  have hperm : List.Perm ((sortedEntries fs).map FSEntry.rel)
      (fs.map FSEntry.rel) :=
    (List.perm_insertionSort (fun a b => entryLe a b = true) fs).map _
  have hnd : ((sortedEntries fs).map FSEntry.rel).Nodup := hperm.symm.nodup h
  have hne : (sortedEntries fs).Pairwise (fun a b => a.rel ≠ b.rel) :=
    List.pairwise_map.mp hnd
  have hcomb : (sortedEntries fs).Pairwise
      (fun a b => partsLt a.rel b.rel = true) :=
    (hs.and hne).imp (fun {a b} hab => partsLt_of_le_ne hab.1 hab.2)
  exact hcomb.filter _

/-! ## Claim theorems -/

/-- Claim C1. For every entry under the scan root whose name, compared
case-insensitively, is in the opaque-directory name set `library_folders`,
classification is determined solely by depth: not ignored (VISIBLE) exactly
when its depth relative to the root is 1, and ignored (HIDDEN) whenever the
depth is greater than 1 — for every pattern list and every ancestor chain,
so the result is independent of generic-pattern matches and of whether any
ancestor is itself opaque. -/
theorem C1_opaque_dir_depth_rule (start patterns rel : List String)
    (hne : rel ≠ [])
    (hlib : library_folders.contains (lower (pathName rel)) = true) :
    should_ignore start patterns rel = decide (1 < rel.length) := by
  simp only [should_ignore]
  rw [pathName_append start hne, hlib]
  simp

/-- Witness for C1: `node_modules` at depth 1 is visible, `react/dist` at
depth 2 is hidden, under the default patterns. -/
theorem C1_opaque_dir_depth_rule_witness :
    library_folders.contains (lower (pathName ["node_modules"])) = true ∧
    should_ignore ["proj"] DEFAULT_IGNORE_PATTERNS ["node_modules"] = false ∧
    library_folders.contains (lower (pathName ["react", "dist"])) = true ∧
    should_ignore ["proj"] DEFAULT_IGNORE_PATTERNS ["react", "dist"] = true :=
  ⟨by decide,
   (C1_opaque_dir_depth_rule ["proj"] DEFAULT_IGNORE_PATTERNS
      ["node_modules"] (by decide) (by decide)).trans (by decide),
   by decide,
   (C1_opaque_dir_depth_rule ["proj"] DEFAULT_IGNORE_PATTERNS
      ["react", "dist"] (by decide) (by decide)).trans (by decide)⟩

/-- Claim C2. Every entry with a strict ancestor strictly below the scan root
whose lowercased name is in the opaque-directory set is classified HIDDEN,
for every pattern list, every depth and every name (so independently of the
config-preservation rules); in particular, for a root containing
`node_modules/react/index.js` the output has a line for `node_modules` and
no line for `react` or `index.js`. -/
theorem C2_ancestor_opacity :
    (∀ start patterns rel a, a ∈ rel.dropLast →
      library_folders.contains (lower a) = true →
      should_ignore start patterns rel = true) ∧
    scanLines "proj" ["proj"] DEFAULT_IGNORE_PATTERNS false fsScenario1 =
      ["File structure for: proj", String.mk (List.replicate 50 '='), "",
       "[DIR] node_modules"] := by
  constructor
  · intro start patterns rel a ha hlib
    have hrelne : rel ≠ [] := by
      intro h
      subst h
      simp at ha
    have hmem : a ∈ rel := (List.dropLast_sublist rel).subset ha
    have hlen : 2 ≤ rel.length := by
      have h1 : rel.dropLast ≠ [] := List.ne_nil_of_mem ha
      have h2 : 0 < rel.dropLast.length := List.length_pos.mpr h1
      have h3 : rel.dropLast.length = rel.length - 1 := List.length_dropLast rel
      omega
    have hinside : insideLibrary rel = true := by
      unfold insideLibrary
      exact List.any_eq_true.mpr ⟨a, hmem, hlib⟩
    by_cases hc : library_folders.contains (lower (pathName (start ++ rel))) = true
    · have hgt : 1 < rel.length := by omega
      simp only [should_ignore]
      rw [hc]
      simp [hgt]
    · have hcf : library_folders.contains (lower (pathName (start ++ rel))) = false :=
        Bool.not_eq_true _ ▸ hc
      simp only [should_ignore]
      rw [hcf, hinside]
      simp
  · decide

/-- Witness for C2: `node_modules/react/index.js` is hidden because its
ancestor `node_modules` is opaque. -/
theorem C2_ancestor_opacity_witness :
    "node_modules" ∈ (["node_modules", "react", "index.js"] :
      List String).dropLast ∧
    should_ignore ["proj"] DEFAULT_IGNORE_PATTERNS
      ["node_modules", "react", "index.js"] = true :=
  ⟨by decide,
   C2_ancestor_opacity.1 ["proj"] DEFAULT_IGNORE_PATTERNS
     ["node_modules", "react", "index.js"] "node_modules"
     (by decide) (by decide)⟩

/-- Claim C3. Every depth-1 entry whose lowercased name is in
`important_config_files`, or starts with `config.`, or ends with
`.config.js` or `.config.ts`, or starts with `.env`, is classified VISIBLE
for every pattern list — in particular even when one or more generic ignore
patterns match it, since the preservation rules are checked first; a
root-level `.env.production` appears in the output. -/
theorem C3_shallow_config_preserved :
    (∀ start patterns name,
      (important_config_files.contains (lower name) ||
       strStartsW (lower name) "config." ||
       strEndsW (lower name) ".config.js" ||
       strEndsW (lower name) ".config.ts" ||
       strStartsW (lower name) ".env") = true →
      should_ignore start patterns [name] = false) ∧
    scanLines "proj" ["proj"] DEFAULT_IGNORE_PATTERNS false
      [⟨[".env.production"], false⟩] =
      ["File structure for: proj", String.mk (List.replicate 50 '='), "",
       "[FILE] .env.production"] := by
  constructor
  · intro start patterns name hpres
    have hname : pathName (start ++ [name]) = name := pathName_concat start name
    by_cases hc : library_folders.contains (lower name) = true
    · simp only [should_ignore]
      rw [hname, hc]
      simp
    · have hcf : library_folders.contains (lower name) = false :=
        Bool.not_eq_true _ ▸ hc
      have hinside : insideLibrary [name] = false := by
        unfold insideLibrary
        rw [List.any_cons, List.any_nil, hcf]
        rfl
      by_cases hcfg : important_config_files.contains (lower name) = true
      · simp only [should_ignore]
        rw [hname, hcf, hinside, hcfg]
        simp
      · have hA : important_config_files.contains (lower name) = false :=
          Bool.not_eq_true _ ▸ hcfg
        rw [hA] at hpres
        have hrest : (strStartsW (lower name) "config." ||
            strEndsW (lower name) ".config.js" ||
            strEndsW (lower name) ".config.ts" ||
            strStartsW (lower name) ".env") = true := by
          simpa using hpres
        simp only [should_ignore]
        rw [hname, hcf, hinside, hA, hrest]
        simp
  · decide

/-- Witness for C3: a root-level `.env.production` (in the preserved set
and carrying the `.env` prefix) is not ignored even though the default
pattern `env` occurs in its path string. -/
theorem C3_shallow_config_preserved_witness :
    (important_config_files.contains (lower ".env.production") ||
     strStartsW (lower ".env.production") "config." ||
     strEndsW (lower ".env.production") ".config.js" ||
     strEndsW (lower ".env.production") ".config.ts" ||
     strStartsW (lower ".env.production") ".env") = true ∧
    strHas "env" (joinPath (["proj"] ++ [".env.production"])) = true ∧
    should_ignore ["proj"] DEFAULT_IGNORE_PATTERNS [".env.production"] = false :=
  ⟨by decide, by decide,
   C3_shallow_config_preserved.1 ["proj"] DEFAULT_IGNORE_PATTERNS
     ".env.production" (by decide)⟩

/-- Claim C4 fails on the code. The claim says both `src/app.config.js` and
`lib/app.config.js` are "preserved by the depth-2 config-preservation
rule, which excludes only entries whose immediate parent is an opaque
directory"; but that rule (lines 290–293) additionally requires the file's
lowercased name to be in `important_config_files`, and `app.config.js` is
not in that set, so the rule fires for neither entry. -/
theorem C4_counterexample :
    preservedByDepth2 ["proj"] ["src", "app.config.js"] = false ∧
    preservedByDepth2 ["proj"] ["lib", "app.config.js"] = false ∧
    important_config_files.contains (lower "app.config.js") = false := by
  decide

/-- Claim C4, amended. For the root `proj` containing `src/app.config.js` and
`lib/app.config.js` (neither `src` nor `lib` opaque), both depth-2 entries
are classified VISIBLE and appear in the output — but not via the depth-2
config-preservation rule, which requires membership in
`important_config_files`: both entries fall through every preservation rule
to the generic pattern stage, where no default pattern matches their path
strings. -/
theorem C4_amended :
    should_ignore ["proj"] DEFAULT_IGNORE_PATTERNS ["src", "app.config.js"] = false ∧
    should_ignore ["proj"] DEFAULT_IGNORE_PATTERNS ["lib", "app.config.js"] = false ∧
    preservedByDepth2 ["proj"] ["src", "app.config.js"] = false ∧
    preservedByDepth2 ["proj"] ["lib", "app.config.js"] = false ∧
    reachesGenericStage ["proj"] ["src", "app.config.js"] = true ∧
    reachesGenericStage ["proj"] ["lib", "app.config.js"] = true ∧
    scanLines "proj" ["proj"] DEFAULT_IGNORE_PATTERNS false fsScenario2 =
      ["File structure for: proj", String.mk (List.replicate 50 '='), "",
       "[DIR] lib", "    [FILE] app.config.js",
       "[DIR] src", "    [FILE] app.config.js"] := by
  decide

/-- Claim C5. An entry that reaches the generic-pattern stage is classified
HIDDEN exactly when some pattern in the effective ignore list matches the
full path string in one of the three spec-stated modes (substring
containment, suffix of the pattern with trailing separator stripped, or
`.ext`-suffix for a `*.ext` pattern); in particular a depth-1 `debug.log`
is hidden under the defaults (it matches `*.log`). -/
theorem C5_generic_pattern_stage :
    (∀ start patterns rel, reachesGenericStage start rel = true →
      (should_ignore start patterns rel = true ↔
        ∃ p ∈ patterns, specMatchMode p (joinPath (start ++ rel)) = true)) ∧
    should_ignore ["proj"] DEFAULT_IGNORE_PATTERNS ["debug.log"] = true := by
  constructor
  · intro start patterns rel hreach
    unfold reachesGenericStage at hreach
    simp only [Bool.and_eq_true, Bool.not_eq_true'] at hreach
    obtain ⟨⟨⟨⟨h1, h2⟩, h3⟩, h4⟩, h5⟩ := hreach
    simp only [should_ignore]
    rw [h1, h2, h3, h4, h5]
    simp only [Bool.false_eq_true, if_false]
    rw [List.any_eq_true]
    exact Iff.rfl
  · decide

/-- Witness for C5: `x.txt` under root `proj` reaches the generic stage,
and hiding is equivalent to a pattern match there. -/
theorem C5_generic_pattern_stage_witness :
    reachesGenericStage ["proj"] ["x.txt"] = true ∧
    (should_ignore ["proj"] ["*.txt"] ["x.txt"] = true ↔
      ∃ p ∈ ["*.txt"], specMatchMode p (joinPath (["proj"] ++ ["x.txt"])) = true) :=
  ⟨by decide,
   C5_generic_pattern_stage.1 ["proj"] ["*.txt"] ["x.txt"] (by decide)⟩

/-- Claim C6 fails on the code. Python `sorted()` on `Path` objects orders by the
tuple of path components, not by the raw path string.  For sibling
directories `a` and `a.c` under root `proj`, the emitted order is `a`,
`a/b`, `a.c`, `a.c/d`; since `'.' < '/'` as characters, the path strings
satisfy `"proj/a.c" < "proj/a/b"`, so the emitted path strings are not in
lexicographic string order.  (The parent-before-descendant half of the
claim does hold; see the amended theorem.) -/
theorem C6_counterexample :
    (visibleEntries ["proj"] DEFAULT_IGNORE_PATTERNS fsPrefixPair).map
      (fun e => joinPath (["proj"] ++ e.rel)) =
      ["proj/a", "proj/a/b", "proj/a.c", "proj/a.c/d"] ∧
    chainSortedBy strLt
      ((visibleEntries ["proj"] DEFAULT_IGNORE_PATTERNS fsPrefixPair).map
        (fun e => joinPath (["proj"] ++ e.rel))) = false := by
  decide

/-- Claim C6, amended. For every scanned tree whose enumeration has no
duplicate paths, the emitted entries are in strict lexicographic order of
their path-component sequences (which differs from raw path-string order
exactly when a sibling name extends another followed by a character below
`'/'`), and the line of any directory precedes the lines of all of its
non-hidden descendants: whenever one emitted entry's components are a
proper leading run of another's, the former comes first. -/
theorem C6_amended (start patterns : List String) (fs : List FSEntry)
    (h : (fs.map FSEntry.rel).Nodup) :
    (visibleEntries start patterns fs).Pairwise
      (fun a b => partsLt a.rel b.rel = true) ∧
    (∀ i j (hi : i < (visibleEntries start patterns fs).length)
        (hj : j < (visibleEntries start patterns fs).length),
      (visibleEntries start patterns fs)[i].rel <+:
        (visibleEntries start patterns fs)[j].rel →
      (visibleEntries start patterns fs)[i].rel ≠
        (visibleEntries start patterns fs)[j].rel →
      i < j) := by
  have hpw := visibleEntries_pairwise start patterns fs h
  refine ⟨hpw, ?_⟩
  intro i j hi hj hpre hne
  rcases Nat.lt_trichotomy i j with hij | hij | hij
  · exact hij
  · subst hij
    exact absurd rfl hne
  · exfalso
    have h1 : partsLt (visibleEntries start patterns fs)[j].rel
        (visibleEntries start patterns fs)[i].rel = true :=
      (List.pairwise_iff_getElem.mp hpw) j i hj hi hij
    have h2 : partsLt (visibleEntries start patterns fs)[i].rel
        (visibleEntries start patterns fs)[j].rel = true :=
      partsLt_of_lead hpre hne
    simpa using h1.symm.trans (partsLt_asymm h2)

/-- Witness for C6 amended, at the tree of the counterexample. -/
theorem C6_amended_witness :
    (fsPrefixPair.map FSEntry.rel).Nodup ∧
    (visibleEntries ["proj"] DEFAULT_IGNORE_PATTERNS fsPrefixPair).Pairwise
      (fun a b => partsLt a.rel b.rel = true) :=
  ⟨by decide,
   (C6_amended ["proj"] DEFAULT_IGNORE_PATTERNS fsPrefixPair (by decide)).1⟩

/-- Claim C7 fails on the code. Classification is not independent of the
textual form of the root path: the generic pattern stage matches patterns
against `str(path)`, which contains the root's own text.  The same entry —
name `x.txt`, depth 1, empty ancestor chain below the root — is visible
under root `proj` but hidden under root `tmp/proj`, because the default
pattern `tmp/` occurs as a substring of the path string `tmp/proj/x.txt`. -/
theorem C7_counterexample :
    should_ignore ["proj"] DEFAULT_IGNORE_PATTERNS ["x.txt"] = false ∧
    should_ignore ["tmp", "proj"] DEFAULT_IGNORE_PATTERNS ["x.txt"] = true ∧
    DEFAULT_IGNORE_PATTERNS.contains "tmp/" = true := by
  decide

/-- Claim C7, amended. Classification is a function of only the entry's name,
its depth, the names of its ancestors strictly below the scan root, and the
path string of the root (which feeds the generic pattern stage): it factors
through `classifyFrom`, whose arguments are exactly the pattern list, the
root's path string, the ancestor-name sequence and the entry name — so it
never depends on sibling order, on contents beneath the entry, or on
anything else about the tree. -/
theorem C7_amended (patterns start ancestors : List String) (name : String)
    (hstart : start ≠ []) :
    should_ignore start patterns (ancestors ++ [name]) =
      classifyFrom patterns (joinPath start) ancestors name := by
  have hname : pathName (start ++ (ancestors ++ [name])) = name := by
    rw [← List.append_assoc, pathName_concat]
  have hjoin : joinPath (start ++ (ancestors ++ [name])) =
      joinPath start ++ "/" ++ joinPath (ancestors ++ [name]) :=
    joinPath_append start hstart (by simp)
  have hlen : (ancestors ++ [name]).length = ancestors.length + 1 := by simp
  have hdrop : (start ++ (ancestors ++ [name])).dropLast = start ++ ancestors := by
    rw [← List.append_assoc, List.dropLast_concat]
  simp only [should_ignore, classifyFrom, insideLibrary]
  rw [hname, hjoin, hlen, hdrop]
  cases ancestors with
  | nil => simp
  | cons a as => rw [pathName_append start (by simp)]

/-- Witness for C7 amended: the factorisation evaluated at a depth-2 entry. -/
theorem C7_amended_witness :
    (["proj"] : List String) ≠ [] ∧
    should_ignore ["proj"] DEFAULT_IGNORE_PATTERNS (["sub"] ++ ["x.txt"]) =
      classifyFrom DEFAULT_IGNORE_PATTERNS (joinPath ["proj"]) ["sub"] "x.txt" :=
  ⟨by decide,
   C7_amended DEFAULT_IGNORE_PATTERNS ["proj"] ["sub"] "x.txt" (by decide)⟩

/-- Claim C8 fails on the code as stated. Caller patterns are additive, but
"every path whose path string contains 'foo' is hidden" is false: the
config-preservation rules run before the generic pattern stage, so a
root-level `foo.config.js` stays visible even though its path string
contains `foo` and `foo` is in the effective pattern list. -/
theorem C8_counterexample :
    strHas "foo" (joinPath (["proj"] ++ ["foo.config.js"])) = true ∧
    should_ignore ["proj"] (DEFAULT_IGNORE_PATTERNS ++ ["foo"])
      ["foo.config.js"] = false := by
  decide

/-- Claim C8, amended. Caller-supplied patterns are purely additive: every
path hidden under a pattern list stays hidden when further patterns are
appended (so the defaults' hits are never lost); and every path whose path
string contains `foo` and that reaches the generic pattern stage (i.e. is
not decided earlier by the opacity or config-preservation rules) is hidden
when `foo` is added to the defaults. -/
theorem C8_amended :
    (∀ start patterns extra rel,
      should_ignore start patterns rel = true →
      should_ignore start (patterns ++ extra) rel = true) ∧
    (∀ start rel, reachesGenericStage start rel = true →
      strHas "foo" (joinPath (start ++ rel)) = true →
      should_ignore start (DEFAULT_IGNORE_PATTERNS ++ ["foo"]) rel = true) := by
  have hgen : ∀ start rel (patterns : List String),
      reachesGenericStage start rel = true →
      should_ignore start patterns rel =
        patterns.any (fun pat => matchesPattern pat (joinPath (start ++ rel))) := by
    intro start rel patterns hreach
    unfold reachesGenericStage at hreach
    simp only [Bool.and_eq_true, Bool.not_eq_true'] at hreach
    obtain ⟨⟨⟨⟨h1, h2⟩, h3⟩, h4⟩, h5⟩ := hreach
    simp only [should_ignore]
    rw [h1, h2, h3, h4, h5]
    simp only [Bool.false_eq_true, if_false]
  have hsame : ∀ start rel (ps qs : List String),
      reachesGenericStage start rel = false →
      should_ignore start ps rel = should_ignore start qs rel := by
    intro start rel ps qs hreach
    simp only [should_ignore]
    by_cases h1 : library_folders.contains (lower (pathName (start ++ rel))) = true
    · rw [h1]
      rfl
    · have h1f : library_folders.contains (lower (pathName (start ++ rel))) = false :=
        Bool.not_eq_true _ ▸ h1
      rw [h1f]
      by_cases h2 : insideLibrary rel = true
      · rw [h2]
        rfl
      · have h2f : insideLibrary rel = false := Bool.not_eq_true _ ▸ h2
        rw [h2f]
        by_cases h3 : (rel.length == 1 &&
            important_config_files.contains (lower (pathName (start ++ rel)))) = true
        · rw [h3]
          rfl
        · have h3f : (rel.length == 1 &&
              important_config_files.contains (lower (pathName (start ++ rel)))) = false :=
            Bool.not_eq_true _ ▸ h3
          rw [h3f]
          by_cases h4 : (rel.length == 2 &&
              !(library_folders.contains (lower (pathName ((start ++ rel)).dropLast))) &&
              important_config_files.contains (lower (pathName (start ++ rel)))) = true
          · rw [h4]
            rfl
          · have h4f : (rel.length == 2 &&
                !(library_folders.contains (lower (pathName ((start ++ rel)).dropLast))) &&
                important_config_files.contains (lower (pathName (start ++ rel)))) = false :=
              Bool.not_eq_true _ ▸ h4
            rw [h4f]
            by_cases h5 : (rel.length == 1 &&
                (strStartsW (lower (pathName (start ++ rel))) "config." ||
                 strEndsW (lower (pathName (start ++ rel))) ".config.js" ||
                 strEndsW (lower (pathName (start ++ rel))) ".config.ts" ||
                 strStartsW (lower (pathName (start ++ rel))) ".env")) = true
            · rw [h5]
              rfl
            · have h5f : (rel.length == 1 &&
                  (strStartsW (lower (pathName (start ++ rel))) "config." ||
                   strEndsW (lower (pathName (start ++ rel))) ".config.js" ||
                   strEndsW (lower (pathName (start ++ rel))) ".config.ts" ||
                   strStartsW (lower (pathName (start ++ rel))) ".env")) = false :=
                Bool.not_eq_true _ ▸ h5
              exfalso
              have hcontra : reachesGenericStage start rel = true := by
                simp only [reachesGenericStage]
                rw [h1f, h2f, h3f, h4f, h5f]
                rfl
              rw [hcontra] at hreach
              exact absurd hreach (by decide)
  constructor
  · intro start patterns extra rel h
    by_cases hreach : reachesGenericStage start rel = true
    · rw [hgen start rel patterns hreach] at h
      rw [hgen start rel (patterns ++ extra) hreach, List.any_append, h]
      rfl
    · have hrf : reachesGenericStage start rel = false :=
        Bool.not_eq_true _ ▸ hreach
      rw [hsame start rel (patterns ++ extra) patterns hrf]
      exact h
  · intro start rel hreach hfoo
    rw [hgen start rel _ hreach, List.any_append]
    have hone : List.any ["foo"]
        (fun pat => matchesPattern pat (joinPath (start ++ rel))) = true := by
      simp [matchesPattern, hfoo]
    rw [hone, Bool.or_true]

/-- Witness for C8: `debug.log` is hidden under the defaults and remains
hidden with `foo` appended; `tool.foo` reaches the generic stage and is
hidden once `foo` is added. -/
theorem C8_amended_witness :
    should_ignore ["proj"] DEFAULT_IGNORE_PATTERNS ["debug.log"] = true ∧
    should_ignore ["proj"] (DEFAULT_IGNORE_PATTERNS ++ ["foo"])
      ["debug.log"] = true ∧
    should_ignore ["proj"] (DEFAULT_IGNORE_PATTERNS ++ ["foo"])
      ["tool.foo"] = true :=
  ⟨by decide,
   C8_amended.1 ["proj"] DEFAULT_IGNORE_PATTERNS ["foo"] ["debug.log"]
     (by decide),
   C8_amended.2 ["proj"] ["tool.foo"] (by decide) (by decide)⟩

/-- Claim C9. The output of every scan is exactly: a first line
`File structure for: <root>`, a second line of fifty `=` characters, a
blank line, and then one line per non-hidden entry, in traversal order, of
the form indent-marker-name, where the indent is four spaces repeated per
depth level (root's direct children at zero indentation), the marker is
`📁 `/`📄 ` in emoji mode or `[DIR] `/`[FILE] ` in text mode chosen by
whether the entry is a directory, and the name is the entry's base name
only (`specEntryLine` spells out exactly this claimed line format). -/
theorem C9_output_format (startStr : String) (start patterns : List String)
    (use_emoji : Bool) (fs : List FSEntry) :
    scanLines startStr start patterns use_emoji fs =
      ("File structure for: " ++ startStr) ::
      String.mk (List.replicate 50 '=') ::
      "" ::
      (visibleEntries start patterns fs).map (specEntryLine use_emoji) ∧
    (String.mk (List.replicate 50 '=')).toList.length = 50 ∧
    ∀ c ∈ (String.mk (List.replicate 50 '=')).toList, c = '=' := by
  refine ⟨rfl, by decide, by decide⟩

/-- Claim C10 fails on the code as stated. The generic stage is indeed
case-sensitive in its substring mode, but "an entry whose path string
contains the pattern only in a differing letter case is never hidden by
that pattern" is false: the other two (equally case-sensitive) match modes
can still fire on a different exact occurrence.  With the default pattern
`bin/` and path string `proj/Bin/robin`, the pattern occurs only as the
differently-cased `Bin/`, yet the suffix mode matches the stripped pattern
`bin` against the tail of `robin` and hides the entry. -/
theorem C10_counterexample :
    DEFAULT_IGNORE_PATTERNS.contains "bin/" = true ∧
    strHas "bin/" "proj/Bin/robin" = false ∧
    strHas "bin/" (lower "proj/Bin/robin") = true ∧
    matchesPattern "bin/" "proj/Bin/robin" = true := by
  decide

/-- Claim C10, amended. The name-based rules are case-insensitive while the
pattern stage is exact-match: (a) with an empty pattern list — isolating
the opaque-directory, ancestor-opacity and config-preservation rules —
classification is invariant under any change of letter case in the entry's
relative segments; (b) the substring mode never fires without an exact
occurrence of the pattern: when the path string does not contain the
pattern exactly, the pattern hides the entry only via the exact suffix
modes (stripped-pattern suffix, or `.ext` suffix for `*.ext` patterns). -/
theorem C10_amended :
    (∀ start relA relB, relA.map lower = relB.map lower →
      should_ignore start [] relA = should_ignore start [] relB) ∧
    (∀ pat path_str, strHas pat path_str = false →
      matchesPattern pat path_str =
        (strEndsW path_str (rstripSlash pat) ||
         (strStartsW pat "*." && strEndsW path_str (strTail pat)))) := by
  constructor
  · intro start relA relB h
    cases relA with
    | nil =>
      cases relB with
      | nil => rfl
      | cons b bs => simp at h
    | cons a as =>
      cases relB with
      | nil => simp at h
      | cons b bs =>
        simp only [List.map_cons, List.cons.injEq] at h
        obtain ⟨hab, hasbs⟩ := h
        have hAne : (a :: as) ≠ ([] : List String) := by simp
        have hBne : (b :: bs) ≠ ([] : List String) := by simp
        have hmap : (a :: as).map lower = (b :: bs).map lower := by
          simp [hab, hasbs]
        have hname : lower (pathName (start ++ a :: as)) =
            lower (pathName (start ++ b :: bs)) := by
          rw [pathName_append start hAne, pathName_append start hBne,
            lower_pathName_map hAne, lower_pathName_map hBne, hmap]
        have hinside : insideLibrary (a :: as) = insideLibrary (b :: bs) := by
          rw [insideLibrary_map_lower, insideLibrary_map_lower, hmap]
        have hlen2 : (a :: as).length = (b :: bs).length := by
          have hc := congrArg List.length hmap
          simpa using hc
        simp only [should_ignore]
        rw [hname, hinside, hlen2]
        cases as with
        | nil =>
          cases bs with
          | nil =>
            rw [List.dropLast_concat, List.dropLast_concat]
            simp only [List.any_nil]
          | cons b' bs' => simp at hasbs
        | cons a' as' =>
          cases bs with
          | nil => simp at hasbs
          | cons b' bs' =>
            have hparent :
                lower (pathName ((start ++ a :: a' :: as').dropLast)) =
                  lower (pathName ((start ++ b :: b' :: bs').dropLast)) := by
              rw [lower_parent_map start (by simp), lower_parent_map start (by simp),
                hmap]
            rw [hparent]
            simp only [List.any_nil]
  · intro pat path_str hno
    unfold matchesPattern
    rw [hno]
    rfl

/-- Witness for C10 amended: same classification for `README.md` and
`readme.MD` at depth 1 (part a), and for pattern `bin/` on
`proj/Bin/robin` hiding reduces to the exact suffix modes (part b). -/
theorem C10_amended_witness :
    (["README.md"] : List String).map lower = (["readme.MD"] : List String).map lower ∧
    should_ignore ["proj"] [] ["README.md"] = should_ignore ["proj"] [] ["readme.MD"] ∧
    strHas "bin/" "proj/Bin/robin" = false ∧
    matchesPattern "bin/" "proj/Bin/robin" =
      (strEndsW "proj/Bin/robin" (rstripSlash "bin/") ||
       (strStartsW "bin/" "*." && strEndsW "proj/Bin/robin" (strTail "bin/"))) :=
  ⟨by decide,
   C10_amended.1 ["proj"] ["README.md"] ["readme.MD"] (by decide),
   by decide,
   C10_amended.2 "bin/" "proj/Bin/robin" (by decide)⟩

end ScanFiles
